import Mathlib

/-!
# The runtime type registry of the actor framework

A shallow embedding of `libcaf_core/src/uniform_type_info_map.cpp`: the table of
builtin type names, the construction of the builtin table, the three `make_value`
lookups and `portable_name`.

Conventions of the embedding:

* a `std::array` is a list of the same length; subscripting outside of it has no
  defined behaviour in C++ and is reported as `error.out_of_bounds`;
* a `std::unordered_map<K, V>` is the finite mapping it denotes, `K → Option V`;
  `find` returning `end()` is `none`;
* a `std::string` is a `String`, a `std::type_info` a value of a type `τ` of
  native type descriptors, and a nullable pointer an `Option`;
* a type-erased container is described by the concrete type of what it holds.
-/

namespace caf

/-- The table `numbered_type_names` of the source, in source order. -/
def numbered_type_names : List String := [
  "@actor",
  "@actorvec",
  "@addr",
  "@addrvec",
  "@bytebuf",
  "@charbuf",
  "@config_value",
  "@down",
  "@downstream_msg",
  "@error",
  "@exit",
  "@group",
  "@group_down",
  "@i16",
  "@i32",
  "@i64",
  "@i8",
  "@ldouble",
  "@message",
  "@message_id",
  "@node",
  "@open_stream_msg",
  "@str",
  "@strmap",
  "@strong_actor_ptr",
  "@strset",
  "@strvec",
  "@timeout",
  "@timespan",
  "@timestamp",
  "@u16",
  "@u16_str",
  "@u32",
  "@u32_str",
  "@u64",
  "@u8",
  "@unit",
  "@upstream_msg",
  "@weak_actor_ptr",
  "bool",
  "caf::add_atom",
  "caf::close_atom",
  "caf::connect_atom",
  "caf::contact_atom",
  "caf::delete_atom",
  "caf::demonitor_atom",
  "caf::div_atom",
  "caf::flush_atom",
  "caf::forward_atom",
  "caf::get_atom",
  "caf::idle_atom",
  "caf::join_atom",
  "caf::leave_atom",
  "caf::link_atom",
  "caf::migrate_atom",
  "caf::monitor_atom",
  "caf::mul_atom",
  "caf::ok_atom",
  "caf::open_atom",
  "caf::pending_atom",
  "caf::ping_atom",
  "caf::pong_atom",
  "caf::publish_atom",
  "caf::publish_udp_atom",
  "caf::put_atom",
  "caf::receive_atom",
  "caf::redirect_atom",
  "caf::resolve_atom",
  "caf::spawn_atom",
  "caf::stream_atom",
  "caf::sub_atom",
  "caf::subscribe_atom",
  "caf::sys_atom",
  "caf::tick_atom",
  "caf::unlink_atom",
  "caf::unpublish_atom",
  "caf::unpublish_udp_atom",
  "caf::unsubscribe_atom",
  "caf::update_atom",
  "caf::wait_for_atom",
  "double",
  "float"
]

variable {τ : Type}

/-- Outcomes of the source that are not a returned value: a subscript outside of
a `std::array` or of `numbered_type_names` (no defined behaviour), and the call
of an empty `std::function` (which throws `std::bad_function_call`). -/
inductive error where
  | out_of_bounds
  | bad_function_call
deriving DecidableEq

/-- Modelled from the spec: the class `type_erased_value` is declared in a
header that is not part of the sources at hand. A container "holds a value of
some concrete type"; it is described here by that concrete type. -/
structure type_erased_value (τ : Type) where
  type : τ
deriving DecidableEq

/-- The owning pointer `type_erased_value_ptr`; `none` is `nullptr`. -/
abbrev type_erased_value_ptr (τ : Type) := Option (type_erased_value τ)

/-- Modelled from the spec: the type `value_factory` is declared in
`caf/uniform_type_info_map.hpp`, which is not part of the sources at hand. It
is "a zero-argument operation that returns a freshly owned container", stored
by value; `empty` is the state of a default-constructed element of the array,
before `fill_builtins` assigns a callable to it. -/
inductive value_factory (τ : Type) where
  | empty
  | target (f : Unit → type_erased_value_ptr τ)

/-- The call `f()` of a `value_factory`; calling an empty one yields no
value. -/
def value_factory.invoke : value_factory τ → Except error (type_erased_value_ptr τ)
  | .empty => .error .bad_function_call
  | .target f => .ok (f ())

/-- The function template `make_type_erased_value<type>`: a fresh container
holding a value of type `type`. -/
def make_type_erased_value (type : τ) : Unit → type_erased_value_ptr τ :=
  fun _ => some ⟨type⟩

/-- The pair `value_factory_kvp` of a name and a factory. -/
abbrev value_factory_kvp (τ : Type) := String × value_factory τ

/-- The array type `builtins`, a `std::array<value_factory_kvp, type_nrs - 1>`. -/
abbrev builtins (τ : Type) := List (value_factory_kvp τ)

/-- Modelled from the spec: `actor_system_config` is declared in a header that
is not part of the sources at hand. The registry reads three mappings of it:
name to factory, native type to factory, native type to name. -/
structure actor_system_config (τ : Type) where
  value_factories_by_name : String → Option (value_factory τ)
  value_factories_by_rtti : τ → Option (value_factory τ)
  type_names_by_rtti : τ → Option String

/-- The owning `actor_system`, reduced to its configuration. -/
structure actor_system (τ : Type) where
  config : actor_system_config τ

/-- Modelled from the spec: the constant `type_nrs` is declared in
`caf/type_nr.hpp`, which is not part of the sources at hand. The builtin table
has one position per type of the list `sorted_builtin_types` (length `N`), and
the arrays are declared with `type_nrs - 1` elements. -/
def type_nrs (sorted_builtin_types : List τ) : Nat :=
  sorted_builtin_types.length + 1

/-- The recursion `fill_builtins(arr, List, pos)`: the overload for the empty
type list returns, the other one writes both members of `arr[pos]` (the name
read from `numbered_type_names[pos]`, and the factory of the head of the list)
and continues with the tail at `pos + 1`. -/
def fill_builtins (arr : builtins τ) : List τ → Nat → Except error (builtins τ)
  | [], _ => .ok arr
  | type :: next, pos =>
    match numbered_type_names[pos]?, arr[pos]? with
    | some name, some _ =>
      fill_builtins (arr.set pos (name, .target (make_type_erased_value type))) next (pos + 1)
    | _, _ => .error .out_of_bounds

/-- The loop `for (size_t i = 0; i < builtin_names_.size(); ++i)` of the
constructor, with `k` the number of iterations left (`size() - i`). -/
def init_builtin_names (names : List String) : Nat → Nat → Except error (List String)
  | 0, _ => .ok names
  | k + 1, i =>
    match numbered_type_names[i]? with
    | some name => init_builtin_names (names.set i name) k (i + 1)
    | none => .error .out_of_bounds

/-- The data members of `uniform_type_info_map` that the source file reads and
writes: the owning system, the builtin table, the parallel sequence of builtin
names and the default placeholder name. -/
structure uniform_type_info_map (τ : Type) where
  system_ : actor_system τ
  builtin_ : builtins τ
  builtin_names_ : List String
  default_type_name_ : String

namespace uniform_type_info_map

/-- The constructor `uniform_type_info_map(actor_system& sys)`, with the type
list `sorted_builtin_types` (declared in `caf/type_nr.hpp`) as a parameter.
Both arrays start default-constructed with `type_nrs - 1` elements. -/
def ctor (sys : actor_system τ) (sorted_builtin_types : List τ) :
    Except error (uniform_type_info_map τ) :=
  let n := type_nrs sorted_builtin_types - 1
  match fill_builtins (List.replicate n ("", value_factory.empty)) sorted_builtin_types 0 with
  | .error e => .error e
  | .ok arr =>
    match init_builtin_names (List.replicate n "") n 0 with
    | .error e => .error e
    | .ok names => .ok ⟨sys, arr, names, "???"⟩

/-- The subscript `nr - 1` for a `uint16_t nr` (the argument taken modulo
`2 ^ 16`): `nr` is promoted to `int`, and the difference is converted to
`size_t` (64 bits), so that `nr = 0` gives `2 ^ 64 - 1`. -/
def subscript (nr : Nat) : Nat :=
  ((((nr % 2 ^ 16 : Nat) : Int) - 1) % 2 ^ 64).toNat

/-- The overload `make_value(uint16_t nr)`: the call of the factory stored at
`builtin_[nr - 1]`. -/
def make_value_nr (m : uniform_type_info_map τ) (nr : Nat) :
    Except error (type_erased_value_ptr τ) :=
  match m.builtin_[subscript nr]? with
  | some kvp => kvp.2.invoke
  | none => .error .out_of_bounds

/-- The position at which `std::find_if(builtin_.begin(), e, pred)` stops for
the predicate `kvp.first == x`; the length of the table stands for `e`. -/
def find_if_name (m : uniform_type_info_map τ) (x : String) : Nat :=
  m.builtin_.findIdx (fun kvp => kvp.1 == x)

/-- The overload `make_value(const std::string& x)`. -/
def make_value_name (m : uniform_type_info_map τ) (x : String) :
    Except error (type_erased_value_ptr τ) :=
  let e := m.builtin_.length
  let i := m.find_if_name x
  if i ≠ e then
    match m.builtin_[i]? with
    | some kvp => kvp.2.invoke
    | none => .error .out_of_bounds
  else
    match m.system_.config.value_factories_by_name x with
    | some f => f.invoke
    | none => .ok none

/-- The overload `make_value(const std::type_info& x)`. -/
def make_value_rtti (m : uniform_type_info_map τ) (x : τ) :
    Except error (type_erased_value_ptr τ) :=
  match m.system_.config.value_factories_by_rtti x with
  | some f => f.invoke
  | none => .ok none

/-- The member function `portable_name(uint16_t nr, const std::type_info* ti)`;
`nr` is taken modulo `2 ^ 16`, and `ti = none` is the null pointer. -/
def portable_name (m : uniform_type_info_map τ) (nr : Nat) (ti : Option τ) :
    Except error String :=
  if nr % 2 ^ 16 ≠ 0 then
    match m.builtin_names_[subscript nr]? with
    | some name => .ok name
    | none => .error .out_of_bounds
  else
    match ti with
    | none => .ok m.default_type_name_
    | some x =>
      match m.system_.config.type_names_by_rtti x with
      | some name => .ok name
      | none => .ok m.default_type_name_

end uniform_type_info_map

/-- The entry that construction stores for a name and a type of the list. -/
def builtin_entry (name : String) (type : τ) : value_factory_kvp τ :=
  (name, value_factory.target (make_type_erased_value type))

/-- A custom registry over the descriptors `Nat`: the type `7` is registered
under the name "user", and a second factory for the type `9` is registered
under the builtin name "@str". -/
def demo_config : actor_system_config Nat :=
  ⟨fun x => if x = "user" then some (.target (make_type_erased_value 7))
      else if x = "@str" then some (.target (make_type_erased_value 9)) else none,
   fun x => if x = 7 then some (.target (make_type_erased_value 7)) else none,
   fun x => if x = 7 then some "user" else none⟩

/-- A custom registry without any registration. -/
def empty_config : actor_system_config Nat :=
  ⟨fun _ => none, fun _ => none, fun _ => none⟩

/-- The type list `0, 1, .., 81`: one descriptor per name of the table. -/
def demo_types : List Nat := List.range 82

/-- The registry that construction yields for `demo_config` and `demo_types`. -/
def demo_map : uniform_type_info_map Nat :=
  ⟨⟨demo_config⟩, List.zipWith builtin_entry numbered_type_names demo_types,
    numbered_type_names, "???"⟩

/-- A custom registry over the descriptors `Nat` in which the type `7` is
registered under the name "???". -/
def placeholder_config : actor_system_config Nat :=
  ⟨fun _ => none, fun _ => none, fun x => if x = 7 then some "???" else none⟩

/-- The registry that construction yields for `placeholder_config` and
`demo_types`. -/
def placeholder_map : uniform_type_info_map Nat :=
  ⟨⟨placeholder_config⟩, List.zipWith builtin_entry numbered_type_names demo_types,
    numbered_type_names, "???"⟩

/-- The bytes of a name. The names at hand are ASCII, so every character is
one byte, its code. -/
def name_bytes (s : String) : List Nat :=
  s.data.map Char.toNat

/-- Byte-wise lexicographic order, strict: the first differing byte decides,
and a proper initial segment comes first. -/
def bytes_lt : List Nat → List Nat → Bool
  | [], [] => false
  | [], _ :: _ => true
  | _ :: _, [] => false
  | a :: as, b :: bs => a < b || (a == b && bytes_lt as bs)

/-- A custom registry over the descriptors `Nat` that holds an empty factory
under the name "user" and another one for the type `7`. -/
def empty_factory_config : actor_system_config Nat :=
  ⟨fun x => if x = "user" then some .empty else none,
   fun x => if x = 7 then some .empty else none,
   fun _ => none⟩

/-- The registry that construction yields for `empty_factory_config` and
`demo_types`. -/
def empty_factory_map : uniform_type_info_map Nat :=
  ⟨⟨empty_factory_config⟩, List.zipWith builtin_entry numbered_type_names demo_types,
    numbered_type_names, "???"⟩

/-! ## Construction of the builtin table -/

theorem numbered_type_names_length : numbered_type_names.length = 82 := by decide

theorem numbered_type_names_nodup : numbered_type_names.Nodup := by decide

/-- Within the bounds of both tables, `fill_builtins` returns; it keeps the
length, leaves the positions outside `pos .. pos + |list|` alone and stores at
`pos + k` the name at that position with the factory of the `k`-th type. -/
theorem fill_builtins_ok (list : List τ) : ∀ (arr : builtins τ) (pos : Nat),
    pos + list.length ≤ numbered_type_names.length → pos + list.length ≤ arr.length →
    ∃ arr1, fill_builtins arr list pos = .ok arr1 ∧ arr1.length = arr.length ∧
      (∀ j, (j < pos ∨ pos + list.length ≤ j) → arr1[j]? = arr[j]?) ∧
      (∀ k, k < list.length → arr1[pos + k]? =
        (numbered_type_names[pos + k]?).bind
          (fun name => (list[k]?).map (fun type => builtin_entry name type))) := by
  induction list with
  | nil =>
    intro arr pos _ _
    exact ⟨arr, rfl, rfl, fun _ _ => rfl, fun k hk => absurd hk (by simp)⟩
  | cons type next ih =>
    intro arr pos h1 h2
    simp only [List.length_cons] at h1 h2
    obtain ⟨name, hname⟩ : ∃ name, numbered_type_names[pos]? = some name :=
      ⟨numbered_type_names[pos], List.getElem?_eq_getElem (by omega)⟩
    obtain ⟨kvp, hkvp⟩ : ∃ kvp, arr[pos]? = some kvp :=
      ⟨arr[pos], List.getElem?_eq_getElem (by omega)⟩
    obtain ⟨arr1, e1, l1, o1, i1⟩ :=
      ih (arr.set pos (builtin_entry name type)) (pos + 1) (by omega)
        (by rw [List.length_set]; omega)
    refine ⟨arr1, ?_, ?_, ?_, ?_⟩
    · simp only [fill_builtins, hname, hkvp]
      exact e1
    · rw [l1, List.length_set]
    · intro j hj
      rw [o1 j (by simp only [List.length_cons] at hj; omega)]
      exact List.getElem?_set_ne (by simp only [List.length_cons] at hj; omega)
    · intro k hk
      cases k with
      | zero =>
        rw [Nat.add_zero, o1 pos (by omega), List.getElem?_set, hname]
        simp [show pos < arr.length by omega]
      | succ k =>
        have hk1 : k < next.length := by simpa using hk
        have h := i1 k hk1
        rw [show pos + (k + 1) = pos + 1 + k by omega, h]
        simp

/-- When `fill_builtins` returns on a non-empty list, every position it wrote
lies inside `numbered_type_names`. -/
theorem fill_builtins_bound (list : List τ) : ∀ (arr arr1 : builtins τ) (pos : Nat),
    fill_builtins arr list pos = .ok arr1 → list ≠ [] →
    pos + list.length ≤ numbered_type_names.length := by
  induction list with
  | nil => intro _ _ _ _ h; exact absurd rfl h
  | cons type next ih =>
    intro arr arr1 pos h _
    cases hname : numbered_type_names[pos]? with
    | none => simp [fill_builtins, hname] at h
    | some name =>
      have hpos : pos < numbered_type_names.length := by
        by_contra hc
        rw [List.getElem?_eq_none (by omega)] at hname
        exact absurd hname (by simp)
      cases hkvp : arr[pos]? with
      | none => simp [fill_builtins, hname, hkvp] at h
      | some kvp =>
        simp only [fill_builtins, hname, hkvp] at h
        cases next with
        | nil => simp only [List.length_cons, List.length_nil]; omega
        | cons a l =>
          have := ih _ _ _ h (by simp)
          simp only [List.length_cons] at this ⊢
          omega

/-- The name loop of the constructor returns when `numbered_type_names` has a
name for every position; position `j` of the result then holds that name. -/
theorem init_builtin_names_ok : ∀ (k : Nat) (names : List String) (i : Nat),
    i + k ≤ numbered_type_names.length → i + k = names.length →
    ∃ names1, init_builtin_names names k i = .ok names1 ∧ names1.length = names.length ∧
      ∀ j, names1[j]? = if i ≤ j ∧ j < i + k then numbered_type_names[j]? else names[j]? := by
  intro k
  induction k with
  | zero =>
    intro names i _ _
    exact ⟨names, rfl, rfl, fun j => by rw [if_neg (by omega)]⟩
  | succ k ih =>
    intro names i h1 h2
    obtain ⟨name, hname⟩ : ∃ name, numbered_type_names[i]? = some name :=
      ⟨numbered_type_names[i], List.getElem?_eq_getElem (by omega)⟩
    obtain ⟨names1, e1, l1, g1⟩ := ih (names.set i name) (i + 1) (by omega)
      (by rw [List.length_set]; omega)
    refine ⟨names1, ?_, ?_, ?_⟩
    · simp only [init_builtin_names, hname]
      exact e1
    · rw [l1, List.length_set]
    · intro j
      rw [g1 j]
      by_cases hj : i = j
      · subst hj
        simp [List.getElem?_set, hname, show i < names.length by omega]
      · rw [List.getElem?_set_ne hj]
        by_cases hj1 : i + 1 ≤ j ∧ j < i + 1 + k
        · rw [if_pos hj1, if_pos (by omega)]
        · rw [if_neg hj1, if_neg (by omega)]

/-- What a successful construction leaves in the registry. -/
theorem uniform_type_info_map.ctor_spec (sys : actor_system τ) (list : List τ)
    (m : uniform_type_info_map τ) (hm : uniform_type_info_map.ctor sys list = .ok m) :
    list.length ≤ numbered_type_names.length ∧ m.system_ = sys ∧
      m.default_type_name_ = "???" ∧
      m.builtin_ = List.zipWith builtin_entry numbered_type_names list ∧
      m.builtin_names_ = numbered_type_names.take list.length := by
  unfold uniform_type_info_map.ctor at hm
  simp only [type_nrs, Nat.add_sub_cancel] at hm
  cases hf : fill_builtins (List.replicate list.length ("", value_factory.empty)) list 0 with
  | error e => simp [hf] at hm
  | ok arr =>
    have hlen : list.length ≤ numbered_type_names.length := by
      cases list with
      | nil => simp
      | cons a l => simpa using fill_builtins_bound _ _ _ _ hf (by simp)
    obtain ⟨arr1, e1, l1, _, i1⟩ := fill_builtins_ok list
      (List.replicate list.length ("", value_factory.empty)) 0 (by omega) (by simp)
    rw [hf] at e1
    cases e1
    obtain ⟨names1, e2, l2, g2⟩ := init_builtin_names_ok list.length
      (List.replicate list.length "") 0 (by omega) (by simp)
    simp only [hf, e2] at hm
    cases hm
    refine ⟨hlen, rfl, rfl, ?_, ?_⟩
    · apply List.ext_getElem?
      intro j
      show arr[j]? = _
      by_cases hj : j < list.length
      · have := i1 j hj
        rw [Nat.zero_add] at this
        rw [this, List.getElem?_zipWith]
        have h1 : numbered_type_names[j]? = some numbered_type_names[j] :=
          List.getElem?_eq_getElem (by omega)
        have h2 : list[j]? = some list[j] := List.getElem?_eq_getElem hj
        rw [h1, h2]
        rfl
      · rw [List.getElem?_eq_none (by rw [l1]; simp; omega),
          List.getElem?_eq_none (by simp; omega)]
    · apply List.ext_getElem?
      intro j
      show names1[j]? = _
      rw [g2 j, List.getElem?_take]
      by_cases hj : j < list.length
      · simp [hj]
      · simp [hj]
        omega

/-- Construction returns whenever the type list is no longer than
`numbered_type_names`. -/
theorem uniform_type_info_map.ctor_ok (sys : actor_system τ) (list : List τ)
    (h : list.length ≤ numbered_type_names.length) :
    ∃ m, uniform_type_info_map.ctor sys list = .ok m := by
  obtain ⟨arr1, e1, _⟩ := fill_builtins_ok list
    (List.replicate list.length ("", value_factory.empty)) 0 (by omega) (by simp)
  obtain ⟨names1, e2, _⟩ := init_builtin_names_ok list.length
    (List.replicate list.length "") 0 (by omega) (by simp)
  refine ⟨⟨sys, arr1, names1, "???"⟩, ?_⟩
  unfold uniform_type_info_map.ctor
  simp only [type_nrs, Nat.add_sub_cancel, e1, e2]

/-! ## Facts shared by the lookups -/

/-- For a tag `i + 1` that fits 16 bits, the subscript `nr - 1` is `i`. -/
theorem uniform_type_info_map.subscript_succ (i : Nat) (h : i + 1 < 2 ^ 16) :
    uniform_type_info_map.subscript (i + 1) = i := by
  unfold uniform_type_info_map.subscript
  omega

/-- In a table whose names are pairwise distinct, the scan for the name of the
entry at position `i` stops at `i`. -/
theorem findIdx_name_of_nodup : ∀ (l : builtins τ) (i : Nat) (kvp : value_factory_kvp τ),
    (l.map Prod.fst).Nodup → l[i]? = some kvp →
    l.findIdx (fun e => e.1 == kvp.1) = i := by
  intro l
  induction l with
  | nil => intro i kvp _ h; simp at h
  | cons a l ih =>
    intro i kvp hnd h
    rw [List.map_cons, List.nodup_cons] at hnd
    cases i with
    | zero =>
      simp only [List.getElem?_cons_zero, Option.some.injEq] at h
      subst h
      simp [List.findIdx_cons]
    | succ k =>
      simp only [List.getElem?_cons_succ] at h
      have hmem : kvp.1 ∈ l.map Prod.fst :=
        List.mem_map.mpr ⟨kvp, List.getElem?_mem h, rfl⟩
      have hne : (a.1 == kvp.1) = false := by
        rw [beq_eq_false_iff_ne]
        intro heq
        exact hnd.1 (heq ▸ hmem)
      rw [List.findIdx_cons, hne, cond_false, ih k kvp hnd.2 h]

/-- The names stored in a constructed builtin table are the first `N` names of
`numbered_type_names`. -/
theorem map_fst_zipWith_builtin_entry (list : List τ)
    (h : list.length ≤ numbered_type_names.length) :
    (List.zipWith builtin_entry numbered_type_names list).map Prod.fst =
      numbered_type_names.take list.length := by
  apply List.ext_getElem?
  intro j
  rw [List.getElem?_map, List.getElem?_zipWith, List.getElem?_take]
  by_cases hj : j < list.length
  · rw [List.getElem?_eq_getElem (show j < numbered_type_names.length by omega),
      List.getElem?_eq_getElem hj, if_pos hj]
    rfl
  · rw [List.getElem?_eq_none (show list.length ≤ j by omega), if_neg hj]
    cases numbered_type_names[j]? <;> rfl

/-- The entry of a constructed builtin table at a position below `N`. -/
theorem getElem?_zipWith_builtin_entry (list : List τ)
    (h : list.length ≤ numbered_type_names.length) (i : Nat) (hi : i < list.length) :
    ∃ name type, numbered_type_names[i]? = some name ∧ list[i]? = some type ∧
      (List.zipWith builtin_entry numbered_type_names list)[i]? =
        some (builtin_entry name type) := by
  refine ⟨numbered_type_names[i], list[i], List.getElem?_eq_getElem (by omega),
    List.getElem?_eq_getElem hi, ?_⟩
  rw [List.getElem?_zipWith, List.getElem?_eq_getElem (show i < numbered_type_names.length by omega),
    List.getElem?_eq_getElem hi]

/-- The length of a constructed builtin table. -/
theorem length_zipWith_builtin_entry (list : List τ)
    (h : list.length ≤ numbered_type_names.length) :
    (List.zipWith builtin_entry numbered_type_names list).length = list.length := by
  rw [List.length_zipWith]
  omega

/-- When no builtin entry carries the name `x`, `make_value(x)` is decided by
the name mapping of the custom registry alone. -/
theorem uniform_type_info_map.make_value_name_of_not_builtin (m : uniform_type_info_map τ)
    (x : String) (hb : ∀ kvp ∈ m.builtin_, kvp.1 ≠ x) :
    m.make_value_name x =
      match m.system_.config.value_factories_by_name x with
      | some f => f.invoke
      | none => .ok none := by
  have hidx : m.find_if_name x = m.builtin_.length := by
    unfold uniform_type_info_map.find_if_name
    rw [List.findIdx_eq_length]
    intro kvp hmem
    exact beq_eq_false_iff_ne.mpr (hb kvp hmem)
  unfold uniform_type_info_map.make_value_name
  simp only [hidx, ne_eq, not_true_eq_false, if_false]

/-! ## The lookups on a constructed registry -/

namespace uniform_type_info_map

/-- C1 (consistency law): in a constructed registry, for every builtin position
`i < N` with the name `kvp.1` stored there and the tag `i + 1`, whatever the
custom registry holds, `make_value(name)` and `make_value(tag)` give the same
result: a container of the `i`-th type of the list. -/
theorem make_value_name_eq_make_value_nr (sys : actor_system τ) (list : List τ)
    (m : uniform_type_info_map τ) (hm : ctor sys list = .ok m)
    (i : Nat) (hi : i < list.length) (kvp : value_factory_kvp τ)
    (hk : m.builtin_[i]? = some kvp) :
    m.make_value_name kvp.1 = m.make_value_nr (i + 1) ∧
      ∃ type, list[i]? = some type ∧ m.make_value_nr (i + 1) = .ok (some ⟨type⟩) := by
  obtain ⟨hlen, _, _, hb, _⟩ := ctor_spec sys list m hm
  have h82 := numbered_type_names_length
  obtain ⟨name, type, _, htype, hentry⟩ := getElem?_zipWith_builtin_entry list hlen i hi
  have hnd : (m.builtin_.map Prod.fst).Nodup := by
    rw [hb, map_fst_zipWith_builtin_entry list hlen]
    exact numbered_type_names_nodup.sublist (List.take_sublist _ _)
  have hidx : m.find_if_name kvp.1 = i := findIdx_name_of_nodup m.builtin_ i kvp hnd hk
  have hblen : m.builtin_.length = list.length := by
    rw [hb]; exact length_zipWith_builtin_entry list hlen
  have hkvp : kvp = builtin_entry name type := by
    rw [hb, hentry] at hk
    exact (Option.some.inj hk).symm
  have hnr : m.make_value_nr (i + 1) = .ok (some ⟨type⟩) := by
    unfold make_value_nr
    rw [subscript_succ i (by omega), hk, hkvp]
    rfl
  refine ⟨?_, type, htype, hnr⟩
  rw [hnr]
  unfold make_value_name
  simp only [hidx, hblen]
  rw [if_pos (by omega), hk, hkvp]
  rfl

/-- C1, evaluated: the last builtin of `demo_map`, position 81 and tag 82. -/
theorem make_value_name_eq_make_value_nr_witness :
    ctor ⟨demo_config⟩ demo_types = .ok demo_map ∧ 81 < demo_types.length ∧
      demo_map.builtin_[81]? = some (builtin_entry "float" 81) ∧
      (demo_map.make_value_name (builtin_entry "float" 81).1 = demo_map.make_value_nr (81 + 1) ∧
        ∃ type, demo_types[81]? = some type ∧
          demo_map.make_value_nr (81 + 1) = .ok (some ⟨type⟩)) :=
  ⟨rfl, by decide, rfl,
    make_value_name_eq_make_value_nr ⟨demo_config⟩ demo_types demo_map rfl 81 (by decide)
      (builtin_entry "float" 81) rfl⟩

/-- C2 (name round-trip): in a constructed registry, for every tag `t` in
`1..N` and every native-type argument, `portable_name(t, ti)` returns a name on
which the scan of `make_value(name)` over the builtin table stops at position
`t - 1`, the position that the tag subscripts, and not at the end. -/
theorem find_if_name_portable_name (sys : actor_system τ) (list : List τ)
    (m : uniform_type_info_map τ) (hm : ctor sys list = .ok m)
    (t : Nat) (ht : 1 ≤ t ∧ t ≤ list.length) (ti : Option τ) :
    ∃ nm, m.portable_name t ti = .ok nm ∧ m.find_if_name nm = t - 1 ∧
      subscript t = t - 1 ∧ t - 1 < m.builtin_.length := by
  obtain ⟨hlen, _, _, hb, hn⟩ := ctor_spec sys list m hm
  have h82 := numbered_type_names_length
  obtain ⟨i, rfl⟩ : ∃ i, t = i + 1 := ⟨t - 1, by omega⟩
  have hi : i < list.length := by omega
  obtain ⟨name, type, hname, _, hentry⟩ := getElem?_zipWith_builtin_entry list hlen i hi
  have hnd : (m.builtin_.map Prod.fst).Nodup := by
    rw [hb, map_fst_zipWith_builtin_entry list hlen]
    exact numbered_type_names_nodup.sublist (List.take_sublist _ _)
  have hsub := subscript_succ i (by omega)
  refine ⟨name, ?_, ?_, ?_, ?_⟩
  · unfold portable_name
    rw [if_pos (by omega), hsub, hn, List.getElem?_take, if_pos hi, hname]
  · rw [Nat.add_sub_cancel]
    exact findIdx_name_of_nodup m.builtin_ i (builtin_entry name type) hnd (by rw [hb, hentry])
  · rw [Nat.add_sub_cancel]; exact hsub
  · rw [hb, length_zipWith_builtin_entry list hlen]; omega

/-- C2, evaluated: tag 15 of `demo_map` with a registered native type. -/
theorem find_if_name_portable_name_witness :
    ctor ⟨demo_config⟩ demo_types = .ok demo_map ∧ (1 ≤ 15 ∧ 15 ≤ demo_types.length) ∧
      ∃ nm, demo_map.portable_name 15 (some 7) = .ok nm ∧ demo_map.find_if_name nm = 15 - 1 ∧
        subscript 15 = 15 - 1 ∧ 15 - 1 < demo_map.builtin_.length :=
  ⟨rfl, by decide,
    find_if_name_portable_name ⟨demo_config⟩ demo_types demo_map rfl 15 (by decide) (some 7)⟩

/-- C3: in a constructed registry, for every tag `t` in `1..N`,
`portable_name(t, ti)` returns the name at position `t - 1` of the name table,
the same for every native-type argument (absent, registered or not) and for
every custom registry the owning system may hold at the time of the call. -/
theorem portable_name_builtin (sys : actor_system τ) (list : List τ)
    (m : uniform_type_info_map τ) (hm : ctor sys list = .ok m)
    (t : Nat) (ht : 1 ≤ t ∧ t ≤ list.length)
    (ti ti1 : Option τ) (sys1 : actor_system τ) :
    ∃ nm, numbered_type_names[t - 1]? = some nm ∧ m.builtin_names_[t - 1]? = some nm ∧
      m.portable_name t ti = .ok nm ∧
      portable_name ⟨sys1, m.builtin_, m.builtin_names_, m.default_type_name_⟩ t ti1 = .ok nm := by
  obtain ⟨hlen, _, _, _, hn⟩ := ctor_spec sys list m hm
  have h82 := numbered_type_names_length
  obtain ⟨i, rfl⟩ : ∃ i, t = i + 1 := ⟨t - 1, by omega⟩
  have hi : i < list.length := by omega
  obtain ⟨nm, hname⟩ : ∃ nm, numbered_type_names[i]? = some nm :=
    ⟨numbered_type_names[i], List.getElem?_eq_getElem (by omega)⟩
  have hsub := subscript_succ i (by omega)
  have hbn : m.builtin_names_[i]? = some nm := by
    rw [hn, List.getElem?_take, if_pos hi, hname]
  refine ⟨nm, ?_, ?_, ?_, ?_⟩
  · rw [Nat.add_sub_cancel]; exact hname
  · rw [Nat.add_sub_cancel]; exact hbn
  · unfold portable_name
    rw [if_pos (by omega), hsub, hbn]
  · unfold portable_name
    rw [if_pos (by omega), hsub]
    show (match m.builtin_names_[i]? with
      | some name => Except.ok name
      | none => Except.error error.out_of_bounds) = _
    rw [hbn]

/-- C3, evaluated: tag 23 of `demo_map`, once with the registered native type
`7` and once without a native type over an empty custom registry. -/
theorem portable_name_builtin_witness :
    ctor ⟨demo_config⟩ demo_types = .ok demo_map ∧ (1 ≤ 23 ∧ 23 ≤ demo_types.length) ∧
      ∃ nm, numbered_type_names[23 - 1]? = some nm ∧ demo_map.builtin_names_[23 - 1]? = some nm ∧
        demo_map.portable_name 23 (some 7) = .ok nm ∧
        portable_name ⟨⟨empty_config⟩, demo_map.builtin_, demo_map.builtin_names_,
          demo_map.default_type_name_⟩ 23 none = .ok nm :=
  ⟨rfl, by decide,
    portable_name_builtin ⟨demo_config⟩ demo_types demo_map rfl 23 (by decide) (some 7) none
      ⟨empty_config⟩⟩

/-- C4: for every registry, native-type descriptor `d` and custom registry,
`portable_name(0, d)` returns the name that the native-type to name mapping
holds for `d` when `d` is a key of it, and the default placeholder name
otherwise. -/
theorem portable_name_zero_descriptor (m : uniform_type_info_map τ) (d : τ) :
    m.portable_name 0 (some d) =
      .ok ((m.system_.config.type_names_by_rtti d).getD m.default_type_name_) := by
  unfold portable_name
  rw [if_neg (by decide)]
  cases h : m.system_.config.type_names_by_rtti d <;> simp [h]

/-- C5: a constructed registry has the default placeholder name "???", and
`portable_name(0, absent)` returns it whatever custom registry the owning
system holds at the time of the call. -/
theorem portable_name_zero_absent (sys : actor_system τ) (list : List τ)
    (m : uniform_type_info_map τ) (hm : ctor sys list = .ok m) (sys1 : actor_system τ) :
    m.default_type_name_ = "???" ∧ m.portable_name 0 none = .ok "???" ∧
      portable_name ⟨sys1, m.builtin_, m.builtin_names_, m.default_type_name_⟩ 0 none
        = .ok "???" := by
  obtain ⟨_, _, hd, _, _⟩ := ctor_spec sys list m hm
  refine ⟨hd, ?_, ?_⟩
  · unfold portable_name
    rw [if_neg (by decide), hd]
  · unfold portable_name
    rw [if_neg (by decide)]
    show Except.ok m.default_type_name_ = _
    rw [hd]

/-- C5, evaluated on `demo_map`, also over an empty custom registry. -/
theorem portable_name_zero_absent_witness :
    ctor ⟨demo_config⟩ demo_types = .ok demo_map ∧
      (demo_map.default_type_name_ = "???" ∧ demo_map.portable_name 0 none = .ok "???" ∧
        portable_name ⟨⟨empty_config⟩, demo_map.builtin_, demo_map.builtin_names_,
          demo_map.default_type_name_⟩ 0 none = .ok "???") :=
  ⟨rfl, portable_name_zero_absent ⟨demo_config⟩ demo_types demo_map rfl ⟨empty_config⟩⟩

/-- C6: in a constructed registry, for every tag `t` in `1..N` the subscript
`t - 1` lies inside the builtin table, and `make_value(t)` returns what the
factory stored at position `t - 1` produces: a container of the type listed at
position `t - 1`. -/
theorem make_value_nr_valid (sys : actor_system τ) (list : List τ)
    (m : uniform_type_info_map τ) (hm : ctor sys list = .ok m)
    (t : Nat) (ht : 1 ≤ t ∧ t ≤ list.length) :
    subscript t = t - 1 ∧ t - 1 < m.builtin_.length ∧
      ∃ kvp type, m.builtin_[t - 1]? = some kvp ∧ list[t - 1]? = some type ∧
        m.make_value_nr t = kvp.2.invoke ∧ m.make_value_nr t = .ok (some ⟨type⟩) := by
  obtain ⟨hlen, _, _, hb, _⟩ := ctor_spec sys list m hm
  have h82 := numbered_type_names_length
  obtain ⟨i, rfl⟩ : ∃ i, t = i + 1 := ⟨t - 1, by omega⟩
  have hi : i < list.length := by omega
  obtain ⟨name, type, _, htype, hentry⟩ := getElem?_zipWith_builtin_entry list hlen i hi
  have hsub := subscript_succ i (by omega)
  have hk : m.builtin_[i]? = some (builtin_entry name type) := by rw [hb, hentry]
  rw [Nat.add_sub_cancel]
  refine ⟨hsub, ?_, builtin_entry name type, type, hk, htype, ?_, ?_⟩
  · rw [hb, length_zipWith_builtin_entry list hlen]; exact hi
  · unfold make_value_nr
    rw [hsub, hk]
  · unfold make_value_nr
    rw [hsub, hk]
    rfl

/-- C6, evaluated: tag 1 of `demo_map`. -/
theorem make_value_nr_valid_witness :
    ctor ⟨demo_config⟩ demo_types = .ok demo_map ∧ (1 ≤ 1 ∧ 1 ≤ demo_types.length) ∧
      (subscript 1 = 1 - 1 ∧ 1 - 1 < demo_map.builtin_.length ∧
        ∃ kvp type, demo_map.builtin_[1 - 1]? = some kvp ∧ demo_types[1 - 1]? = some type ∧
          demo_map.make_value_nr 1 = kvp.2.invoke ∧
          demo_map.make_value_nr 1 = .ok (some ⟨type⟩)) :=
  ⟨rfl, by decide, make_value_nr_valid ⟨demo_config⟩ demo_types demo_map rfl 1 (by decide)⟩

/-- C7: for every registry and every name `x` that is neither the name of a
builtin entry nor a key of the custom name to factory mapping, `make_value(x)`
returns the null pointer, and does so as a normal result, not as an error. -/
theorem make_value_name_unknown (m : uniform_type_info_map τ) (x : String)
    (hb : ∀ kvp ∈ m.builtin_, kvp.1 ≠ x)
    (hc : m.system_.config.value_factories_by_name x = none) :
    m.make_value_name x = .ok none := by
  rw [make_value_name_of_not_builtin m x hb, hc]

/-- C7, evaluated: the name "not_a_type" on `demo_map`. -/
theorem make_value_name_unknown_witness :
    (∀ kvp ∈ demo_map.builtin_, kvp.1 ≠ "not_a_type") ∧
      demo_map.system_.config.value_factories_by_name "not_a_type" = none ∧
      demo_map.make_value_name "not_a_type" = .ok none :=
  ⟨by decide, rfl, make_value_name_unknown demo_map "not_a_type" (by decide) rfl⟩

/-- C8: in a constructed registry, a name `x` that no builtin entry carries but
that is a key of the custom name to factory mapping yields the product of the
factory held there; and a name `x` carried by a builtin entry yields the
product of that entry's factory, whatever the custom mapping holds for `x`. -/
theorem make_value_name_builtin_first (sys : actor_system τ) (list : List τ)
    (m : uniform_type_info_map τ) (hm : ctor sys list = .ok m) (x : String) :
    (∀ f, (∀ kvp ∈ m.builtin_, kvp.1 ≠ x) →
        m.system_.config.value_factories_by_name x = some f →
        m.make_value_name x = f.invoke) ∧
      (∀ (i : Nat) (kvp : value_factory_kvp τ), m.builtin_[i]? = some kvp → kvp.1 = x →
        m.make_value_name x = kvp.2.invoke) := by
  obtain ⟨hlen, _, _, hb, _⟩ := ctor_spec sys list m hm
  constructor
  · intro f hnb hc
    rw [make_value_name_of_not_builtin m x hnb, hc]
  · intro i kvp hk hx
    subst hx
    have hnd : (m.builtin_.map Prod.fst).Nodup := by
      rw [hb, map_fst_zipWith_builtin_entry list hlen]
      exact numbered_type_names_nodup.sublist (List.take_sublist _ _)
    have hidx : m.find_if_name kvp.1 = i := findIdx_name_of_nodup m.builtin_ i kvp hnd hk
    have hi : i < m.builtin_.length := by
      by_contra hc
      rw [List.getElem?_eq_none (by omega)] at hk
      exact absurd hk (by simp)
    unfold make_value_name
    simp only [hidx]
    rw [if_pos (by omega), hk]

/-- C8, evaluated on `demo_map`: "user" is a custom name only and yields the
custom type `7`; "@str" is the builtin at position 22 and also registered in
the custom mapping (for the type `9`), and the builtin factory (type `22`) is
the one used. -/
theorem make_value_name_builtin_first_witness :
    ctor ⟨demo_config⟩ demo_types = .ok demo_map ∧
      (∀ kvp ∈ demo_map.builtin_, kvp.1 ≠ "user") ∧
      demo_map.system_.config.value_factories_by_name "user"
        = some (.target (make_type_erased_value 7)) ∧
      demo_map.make_value_name "user" = .ok (some ⟨7⟩) ∧
      demo_map.builtin_[22]? = some (builtin_entry "@str" 22) ∧
      demo_map.system_.config.value_factories_by_name "@str"
        = some (.target (make_type_erased_value 9)) ∧
      demo_map.make_value_name "@str" = .ok (some ⟨22⟩) :=
  ⟨rfl, by decide, rfl,
    (make_value_name_builtin_first ⟨demo_config⟩ demo_types demo_map rfl "user").1
      (.target (make_type_erased_value 7)) (by decide) rfl,
    rfl, rfl,
    (make_value_name_builtin_first ⟨demo_config⟩ demo_types demo_map rfl "@str").2
      22 (builtin_entry "@str" 22) rfl rfl⟩

/-- C9: for every registry and native-type descriptor `d`, `make_value(d)` is
the product of the factory that the native-type to factory mapping holds for
`d`, or the null pointer when `d` is not a key; the builtin table, the builtin
names, the placeholder and the two other custom mappings have no influence. -/
theorem make_value_rtti_custom_only (m : uniform_type_info_map τ) (d : τ)
    (arr : builtins τ) (names : List String) (placeholder : String)
    (by_name : String → Option (value_factory τ)) (type_names : τ → Option String) :
    m.make_value_rtti d =
        (match m.system_.config.value_factories_by_rtti d with
          | some f => f.invoke
          | none => .ok none) ∧
      make_value_rtti
        ⟨⟨⟨by_name, m.system_.config.value_factories_by_rtti, type_names⟩⟩, arr, names,
          placeholder⟩ d = m.make_value_rtti d :=
  ⟨rfl, rfl⟩

/-- C10 as stated fails: `demo_map` has 82 builtin names, and for the 16-bit
tag 83 `portable_name` subscripts `builtin_names_` at position 82, outside of
the array, so that no name is returned. -/
theorem portable_name_tag_above_range :
    ctor ⟨demo_config⟩ demo_types = .ok demo_map ∧ 83 < 2 ^ 16 ∧
      demo_map.builtin_names_.length = 82 ∧ subscript 83 = 82 ∧
      demo_map.portable_name 83 none = .error .out_of_bounds ∧
      ¬ ∃ nm, demo_map.portable_name 83 none = .ok nm := by
  refine ⟨rfl, by decide, rfl, by decide, rfl, ?_⟩
  rintro ⟨nm, h⟩
  have h1 : demo_map.portable_name 83 none = .error .out_of_bounds := rfl
  rw [h1] at h
  cases h

/-- C10, amended: in a constructed registry, for every tag `t` between `0` and
`N` and every optional native-type descriptor, `portable_name(t, ti)` returns a
name: for `t ≥ 1` the builtin name at position `t - 1`, and for `t = 0` either
the name registered for the given descriptor or the placeholder. -/
theorem portable_name_total_in_range (sys : actor_system τ) (list : List τ)
    (m : uniform_type_info_map τ) (hm : ctor sys list = .ok m)
    (t : Nat) (ht : t ≤ list.length) (ti : Option τ) :
    ∃ nm, m.portable_name t ti = .ok nm ∧
      ((1 ≤ t ∧ numbered_type_names[t - 1]? = some nm) ∨
        (t = 0 ∧ ∃ d, ti = some d ∧ m.system_.config.type_names_by_rtti d = some nm) ∨
        (t = 0 ∧ nm = m.default_type_name_)) := by
  obtain ⟨hlen, _, _, _, hn⟩ := ctor_spec sys list m hm
  have h82 := numbered_type_names_length
  cases t with
  | zero =>
    cases ti with
    | none => exact ⟨m.default_type_name_, rfl, Or.inr (Or.inr ⟨rfl, rfl⟩)⟩
    | some d =>
      cases hd : m.system_.config.type_names_by_rtti d with
      | none =>
        refine ⟨m.default_type_name_, ?_, Or.inr (Or.inr ⟨rfl, rfl⟩)⟩
        unfold portable_name
        rw [if_neg (by decide)]
        simp only [hd]
      | some nm =>
        refine ⟨nm, ?_, Or.inr (Or.inl ⟨rfl, d, rfl, hd⟩)⟩
        unfold portable_name
        rw [if_neg (by decide)]
        simp only [hd]
  | succ i =>
    have hi : i < list.length := by omega
    obtain ⟨nm, hname⟩ : ∃ nm, numbered_type_names[i]? = some nm :=
      ⟨numbered_type_names[i], List.getElem?_eq_getElem (by omega)⟩
    refine ⟨nm, ?_, Or.inl ⟨by omega, by rw [Nat.add_sub_cancel]; exact hname⟩⟩
    unfold portable_name
    rw [if_pos (by omega), subscript_succ i (by omega), hn, List.getElem?_take, if_pos hi,
      hname]

/-- C10 amended, evaluated: tag 0 of `demo_map` with the registered native
type `7`. -/
theorem portable_name_total_in_range_witness :
    ctor ⟨demo_config⟩ demo_types = .ok demo_map ∧ 0 ≤ demo_types.length ∧
      ∃ nm, demo_map.portable_name 0 (some 7) = .ok nm ∧
        ((1 ≤ 0 ∧ numbered_type_names[0 - 1]? = some nm) ∨
          (0 = 0 ∧ ∃ d, some 7 = some d ∧
            demo_map.system_.config.type_names_by_rtti d = some nm) ∨
          (0 = 0 ∧ nm = demo_map.default_type_name_)) :=
  ⟨rfl, by decide,
    portable_name_total_in_range ⟨demo_config⟩ demo_types demo_map rfl 0 (by decide) (some 7)⟩

/-! ## Totality of the lookups, construction, and the name table -/

/-- Every entry of a constructed builtin table holds a callable factory, made
by `make_type_erased_value` for a type of the list, under a name of
`numbered_type_names`. -/
theorem entry_of_mem_builtin (sys : actor_system τ) (list : List τ)
    (m : uniform_type_info_map τ) (hm : ctor sys list = .ok m)
    (i : Nat) (kvp : value_factory_kvp τ) (hk : m.builtin_[i]? = some kvp) :
    ∃ name type, name ∈ numbered_type_names ∧ kvp = builtin_entry name type := by
  obtain ⟨_, _, _, hb, _⟩ := ctor_spec sys list m hm
  rw [hb, List.getElem?_zipWith_eq_some] at hk
  obtain ⟨name, type, hname, _, hkvp⟩ := hk
  exact ⟨name, type, List.getElem?_mem hname, hkvp.symm⟩

/-- C11 as stated fails, in two ways. `make_value(uint16_t)` has no guard: on
`demo_map` (82 builtins) the tag 0 subscripts the table at `2 ^ 64 - 1` and the
tag 83 at `82`, both outside of the positions `0..81`, so that no value is
returned. And the lookups by name and by native type call whatever factory the
custom registry holds: on `empty_factory_map` the name "user" and the native
type `7` reach an empty factory, whose call gives neither a value nor the null
pointer. -/
theorem make_value_not_total :
    ctor ⟨demo_config⟩ demo_types = .ok demo_map ∧ demo_map.builtin_.length = 82 ∧
      subscript 0 = 2 ^ 64 - 1 ∧ ¬ subscript 0 < demo_map.builtin_.length ∧
      demo_map.make_value_nr 0 = .error .out_of_bounds ∧
      subscript 83 = 82 ∧ ¬ subscript 83 < demo_map.builtin_.length ∧
      demo_map.make_value_nr 83 = .error .out_of_bounds ∧
      (¬ ∃ v, demo_map.make_value_nr 0 = .ok v) ∧
      ctor ⟨empty_factory_config⟩ demo_types = .ok empty_factory_map ∧
      empty_factory_map.system_.config.value_factories_by_name "user" = some .empty ∧
      empty_factory_map.make_value_name "user" = .error .bad_function_call ∧
      (¬ ∃ v, empty_factory_map.make_value_name "user" = .ok v) ∧
      empty_factory_map.system_.config.value_factories_by_rtti 7 = some .empty ∧
      empty_factory_map.make_value_rtti 7 = .error .bad_function_call ∧
      ¬ ∃ v, empty_factory_map.make_value_rtti 7 = .ok v := by
  refine ⟨rfl, rfl, by decide, by decide, rfl, by decide, by decide, rfl, ?_, rfl, rfl, rfl,
    ?_, rfl, rfl, ?_⟩
  · rintro ⟨v, h⟩
    have h1 : demo_map.make_value_nr 0 = .error .out_of_bounds := rfl
    rw [h1] at h
    cases h
  · rintro ⟨v, h⟩
    have h1 : empty_factory_map.make_value_name "user" = .error .bad_function_call := rfl
    rw [h1] at h
    cases h
  · rintro ⟨v, h⟩
    have h1 : empty_factory_map.make_value_rtti 7 = .error .bad_function_call := rfl
    rw [h1] at h
    cases h

/-- C11, amended: in a constructed registry, `make_value(tag)` subscripts
inside the table and returns a container for every tag in `1..N`;
`make_value(name)` returns a container or the null pointer for every name,
except a name that no builtin entry carries and for which the custom name to
factory mapping holds an empty factory; `make_value(native_type)` returns a
container or the null pointer for every descriptor, except one for which the
custom native-type to factory mapping holds an empty factory. -/
theorem make_value_total_in_range (sys : actor_system τ) (list : List τ)
    (m : uniform_type_info_map τ) (hm : ctor sys list = .ok m) :
    (∀ t, 1 ≤ t → t ≤ list.length →
        subscript t < m.builtin_.length ∧ ∃ v, m.make_value_nr t = .ok (some v)) ∧
      (∀ x, (∃ v, m.make_value_name x = .ok v) ∨
        ((∀ kvp ∈ m.builtin_, kvp.1 ≠ x) ∧
          m.system_.config.value_factories_by_name x = some .empty)) ∧
      (∀ d, (∃ v, m.make_value_rtti d = .ok v) ∨
        m.system_.config.value_factories_by_rtti d = some .empty) := by
  obtain ⟨hlen, _, _, hb, _⟩ := ctor_spec sys list m hm
  have h82 := numbered_type_names_length
  have hblen : m.builtin_.length = list.length := by
    rw [hb]; exact length_zipWith_builtin_entry list hlen
  refine ⟨?_, ?_, ?_⟩
  · intro t h1 h2
    obtain ⟨i, rfl⟩ : ∃ i, t = i + 1 := ⟨t - 1, by omega⟩
    have hsub := subscript_succ i (by omega)
    obtain ⟨name, type, _, _, hentry⟩ :=
      getElem?_zipWith_builtin_entry list hlen i (by omega)
    refine ⟨by rw [hsub, hblen]; omega, ⟨type⟩, ?_⟩
    unfold make_value_nr
    rw [hsub, hb, hentry]
    rfl
  · intro x
    by_cases hidx : m.find_if_name x = m.builtin_.length
    · have hnb : ∀ kvp ∈ m.builtin_, kvp.1 ≠ x := by
        intro kvp hmem
        have hall := List.findIdx_eq_length.mp hidx kvp hmem
        exact beq_eq_false_iff_ne.mp hall
      cases hc : m.system_.config.value_factories_by_name x with
      | none =>
        left
        refine ⟨none, ?_⟩
        unfold make_value_name
        simp only [hidx, ne_eq, not_true_eq_false, if_false, hc]
      | some f =>
        cases f with
        | empty => right; exact ⟨hnb, rfl⟩
        | target g =>
          left
          refine ⟨g (), ?_⟩
          unfold make_value_name
          simp only [hidx, ne_eq, not_true_eq_false, if_false, hc]
          rfl
    · have hlt : m.find_if_name x < m.builtin_.length :=
        Nat.lt_of_le_of_ne (List.findIdx_le_length _) hidx
      obtain ⟨kvp, hk⟩ : ∃ kvp, m.builtin_[m.find_if_name x]? = some kvp :=
        ⟨m.builtin_[m.find_if_name x], List.getElem?_eq_getElem hlt⟩
      obtain ⟨name, type, _, hkvp⟩ := entry_of_mem_builtin sys list m hm _ kvp hk
      left
      refine ⟨some ⟨type⟩, ?_⟩
      unfold make_value_name
      simp only [ne_eq, hidx, not_false_eq_true, if_true, hk, hkvp]
      rfl
  · intro d
    cases hc : m.system_.config.value_factories_by_rtti d with
    | none =>
      left
      refine ⟨none, ?_⟩
      unfold make_value_rtti
      simp only [hc]
    | some f =>
      cases f with
      | empty => right; rfl
      | target g =>
        left
        refine ⟨g (), ?_⟩
        unfold make_value_rtti
        simp only [hc]
        rfl

/-- C11 amended, evaluated on `demo_map`, whose custom factories are all
callable: the tag 82, the custom name "user", the builtin name "@str", an
unknown name and the native type `7`. -/
theorem make_value_total_in_range_witness :
    ctor ⟨demo_config⟩ demo_types = .ok demo_map ∧
      demo_map.make_value_nr 82 = .ok (some ⟨81⟩) ∧
      demo_map.make_value_name "user" = .ok (some ⟨7⟩) ∧
      demo_map.make_value_name "@str" = .ok (some ⟨22⟩) ∧
      demo_map.make_value_name "not_a_type" = .ok none ∧
      demo_map.make_value_rtti 7 = .ok (some ⟨7⟩) ∧
      demo_map.make_value_rtti 8 = .ok none ∧
      ((∀ t, 1 ≤ t → t ≤ demo_types.length →
          subscript t < demo_map.builtin_.length ∧
            ∃ v, demo_map.make_value_nr t = .ok (some v)) ∧
        (∀ x, (∃ v, demo_map.make_value_name x = .ok v) ∨
          ((∀ kvp ∈ demo_map.builtin_, kvp.1 ≠ x) ∧
            demo_map.system_.config.value_factories_by_name x = some .empty)) ∧
        (∀ d, (∃ v, demo_map.make_value_rtti d = .ok v) ∨
          demo_map.system_.config.value_factories_by_rtti d = some .empty)) :=
  ⟨rfl, rfl, rfl, rfl, rfl, rfl, rfl,
    make_value_total_in_range ⟨demo_config⟩ demo_types demo_map rfl⟩

end uniform_type_info_map

/-- C12: for an array no longer than the name table (the array type has one
element per builtin name), every type list `list` and every start position
`pos` with `pos + |list|` inside the array, `fill_builtins(arr, list, pos)`
returns; afterwards position `pos + k` holds the name
`numbered_type_names[pos + k]` and the factory of the `k`-th type of the list,
for every `k < |list|`, and every other position is as before. On the empty
list the array is returned as it was. -/
theorem fill_builtins_linear_pass (arr : builtins τ) (list : List τ) (pos : Nat)
    (harr : arr.length ≤ numbered_type_names.length)
    (hpos : pos + list.length ≤ arr.length) :
    fill_builtins arr [] pos = .ok arr ∧
      ∃ arr1, fill_builtins arr list pos = .ok arr1 ∧ arr1.length = arr.length ∧
        (∀ k, k < list.length → ∃ name type,
          numbered_type_names[pos + k]? = some name ∧ list[k]? = some type ∧
          arr1[pos + k]? = some (name, value_factory.target (make_type_erased_value type))) ∧
        (∀ j, (j < pos ∨ pos + list.length ≤ j) → arr1[j]? = arr[j]?) := by
  refine ⟨rfl, ?_⟩
  obtain ⟨arr1, e1, l1, o1, i1⟩ := fill_builtins_ok list arr pos (by omega) hpos
  refine ⟨arr1, e1, l1, ?_, o1⟩
  intro k hk
  obtain ⟨name, hname⟩ : ∃ name, numbered_type_names[pos + k]? = some name :=
    ⟨numbered_type_names[pos + k], List.getElem?_eq_getElem (by omega)⟩
  obtain ⟨type, htype⟩ : ∃ type, list[k]? = some type :=
    ⟨list[k], List.getElem?_eq_getElem hk⟩
  refine ⟨name, type, hname, htype, ?_⟩
  rw [i1 k hk, hname, htype]
  rfl

/-- C12, evaluated: two types written at the positions 2 and 3 of a
default-constructed array of five elements. -/
theorem fill_builtins_linear_pass_witness :
    (List.replicate 5 ("", (value_factory.empty : value_factory Nat))).length
        ≤ numbered_type_names.length ∧
      2 + [10, 11].length
        ≤ (List.replicate 5 ("", (value_factory.empty : value_factory Nat))).length ∧
      fill_builtins (List.replicate 5 ("", value_factory.empty)) [10, 11] 2 =
        .ok [("", .empty), ("", .empty), builtin_entry "@addr" 10,
          builtin_entry "@addrvec" 11, ("", .empty)] ∧
      (fill_builtins (List.replicate 5 ("", (value_factory.empty : value_factory Nat))) [] 2 =
          .ok (List.replicate 5 ("", value_factory.empty)) ∧
        ∃ arr1, fill_builtins (List.replicate 5 ("", value_factory.empty)) [10, 11] 2 =
            .ok arr1 ∧
          arr1.length = (List.replicate 5 ("", (value_factory.empty : value_factory Nat))).length ∧
          (∀ k, k < [10, 11].length → ∃ name type,
            numbered_type_names[2 + k]? = some name ∧ [10, 11][k]? = some type ∧
            arr1[2 + k]? = some (name, value_factory.target (make_type_erased_value type))) ∧
          (∀ j, (j < 2 ∨ 2 + [10, 11].length ≤ j) →
            arr1[j]? = (List.replicate 5 ("", (value_factory.empty : value_factory Nat)))[j]?)) :=
  ⟨by decide, by decide, rfl,
    fill_builtins_linear_pass (List.replicate 5 ("", value_factory.empty)) [10, 11] 2
      (by decide) (by decide)⟩

namespace uniform_type_info_map

/-- C13: after construction both arrays have `N` elements, and at every
position `i < N` the name in `builtin_names_` (read by `portable_name`), the
name in `builtin_` (compared by the scan of `make_value`) and
`numbered_type_names[i]` are the same string. -/
theorem builtin_names_parallel (sys : actor_system τ) (list : List τ)
    (m : uniform_type_info_map τ) (hm : ctor sys list = .ok m)
    (i : Nat) (hi : i < list.length) :
    m.builtin_.length = list.length ∧ m.builtin_names_.length = list.length ∧
      ∃ nm, numbered_type_names[i]? = some nm ∧ m.builtin_names_[i]? = some nm ∧
        (m.builtin_[i]?).map Prod.fst = some nm := by
  obtain ⟨hlen, _, _, hb, hn⟩ := ctor_spec sys list m hm
  obtain ⟨name, type, hname, _, hentry⟩ := getElem?_zipWith_builtin_entry list hlen i hi
  refine ⟨?_, ?_, name, hname, ?_, ?_⟩
  · rw [hb]; exact length_zipWith_builtin_entry list hlen
  · rw [hn, List.length_take]; omega
  · rw [hn, List.getElem?_take, if_pos hi, hname]
  · rw [hb, hentry]
    rfl

/-- C13, evaluated: position 40 of `demo_map`. -/
theorem builtin_names_parallel_witness :
    ctor ⟨demo_config⟩ demo_types = .ok demo_map ∧ 40 < demo_types.length ∧
      (demo_map.builtin_.length = demo_types.length ∧
        demo_map.builtin_names_.length = demo_types.length ∧
        ∃ nm, numbered_type_names[40]? = some nm ∧ demo_map.builtin_names_[40]? = some nm ∧
          (demo_map.builtin_[40]?).map Prod.fst = some nm) :=
  ⟨rfl, by decide, builtin_names_parallel ⟨demo_config⟩ demo_types demo_map rfl 40 (by decide)⟩

/-- No list of bytes is below itself. -/
theorem bytes_lt_irrefl : ∀ l : List Nat, bytes_lt l l = false := by
  intro l
  induction l with
  | nil => rfl
  | cons a l ih => simp [bytes_lt, ih]

/-- In a constructed registry the tag `i + 1` of a position `i < N` resolves
to the name `numbered_type_names[i]`. -/
theorem portable_name_succ (sys : actor_system τ) (list : List τ)
    (m : uniform_type_info_map τ) (hm : ctor sys list = .ok m)
    (i : Nat) (hi : i < list.length) (ti : Option τ) :
    ∃ nm, numbered_type_names[i]? = some nm ∧ m.portable_name (i + 1) ti = .ok nm := by
  obtain ⟨hlen, _, _, _, hn⟩ := ctor_spec sys list m hm
  have h82 := numbered_type_names_length
  obtain ⟨nm, hname⟩ : ∃ nm, numbered_type_names[i]? = some nm :=
    ⟨numbered_type_names[i], List.getElem?_eq_getElem (by omega)⟩
  refine ⟨nm, hname, ?_⟩
  unfold portable_name
  rw [if_pos (by omega), subscript_succ i (by omega), hn, List.getElem?_take, if_pos hi, hname]

/-- C14: the names of `numbered_type_names` are ASCII and strictly ascending in
byte-wise lexicographic order (every name is below every later one), hence
pairwise distinct; and in a constructed registry two tags of `1..N` that
resolve to the same name are the same tag. -/
theorem numbered_type_names_ascending (sys : actor_system τ) (list : List τ)
    (m : uniform_type_info_map τ) (hm : ctor sys list = .ok m)
    (t1 t2 : Nat) (h1 : 1 ≤ t1 ∧ t1 ≤ list.length) (h2 : 1 ≤ t2 ∧ t2 ≤ list.length)
    (ti1 ti2 : Option τ) :
    (∀ s ∈ numbered_type_names, ∀ b ∈ name_bytes s, b < 128) ∧
      numbered_type_names.Pairwise (fun a b => bytes_lt (name_bytes a) (name_bytes b) = true) ∧
      numbered_type_names.Nodup ∧
      (m.portable_name t1 ti1 = m.portable_name t2 ti2 → t1 = t2) := by
  have hasc : numbered_type_names.Pairwise
      (fun a b => bytes_lt (name_bytes a) (name_bytes b) = true) := by decide
  have hnd : numbered_type_names.Nodup := by
    refine List.Pairwise.imp ?_ hasc
    intro a b hlt heq
    subst heq
    rw [bytes_lt_irrefl] at hlt
    cases hlt
  refine ⟨by decide, hasc, hnd, ?_⟩
  intro heq
  obtain ⟨hlen, _, _, _, _⟩ := ctor_spec sys list m hm
  obtain ⟨i1, rfl⟩ : ∃ i, t1 = i + 1 := ⟨t1 - 1, by omega⟩
  obtain ⟨i2, rfl⟩ : ∃ i, t2 = i + 1 := ⟨t2 - 1, by omega⟩
  obtain ⟨nm1, hn1, hp1⟩ := portable_name_succ sys list m hm i1 (by omega) ti1
  obtain ⟨nm2, hn2, hp2⟩ := portable_name_succ sys list m hm i2 (by omega) ti2
  rw [hp1, hp2] at heq
  have hnm : nm1 = nm2 := Except.ok.inj heq
  subst hnm
  have hne := List.nodup_iff_getElem?_ne_getElem?.mp hnd
  rcases Nat.lt_trichotomy i1 i2 with hlt | heq2 | hgt
  · exact absurd (hn1.trans hn2.symm) (hne i1 i2 hlt (by omega))
  · rw [heq2]
  · exact absurd (hn2.trans hn1.symm) (hne i2 i1 hgt (by omega))

/-- C14, evaluated: the tags 14 and 17 of `demo_map` ("@i16" and "@i8"). -/
theorem numbered_type_names_ascending_witness :
    ctor ⟨demo_config⟩ demo_types = .ok demo_map ∧
      (1 ≤ 14 ∧ 14 ≤ demo_types.length) ∧ (1 ≤ 17 ∧ 17 ≤ demo_types.length) ∧
      demo_map.portable_name 14 none = .ok "@i16" ∧
      demo_map.portable_name 17 (some 7) = .ok "@i8" ∧
      bytes_lt (name_bytes "@i64") (name_bytes "@i8") = true ∧
      ((∀ s ∈ numbered_type_names, ∀ b ∈ name_bytes s, b < 128) ∧
        numbered_type_names.Pairwise
          (fun a b => bytes_lt (name_bytes a) (name_bytes b) = true) ∧
        numbered_type_names.Nodup ∧
        (demo_map.portable_name 14 none = demo_map.portable_name 17 (some 7) → 14 = 17)) :=
  ⟨rfl, by decide, by decide, rfl, rfl, by decide,
    numbered_type_names_ascending ⟨demo_config⟩ demo_types demo_map rfl 14 17
      (by decide) (by decide) none (some 7)⟩

/-- C15 as stated fails in its middle part: in `placeholder_map` the native
type `7` is registered under the custom name "???", so `portable_name(0, 7)`
returns "???" although a custom name is registered for the descriptor. -/
theorem placeholder_may_be_registered :
    ctor ⟨placeholder_config⟩ demo_types = .ok placeholder_map ∧
      placeholder_map.system_.config.type_names_by_rtti 7 = some "???" ∧
      placeholder_map.portable_name 0 (some 7) = .ok "???" ∧
      ¬ (∀ (t : Nat) (ti : Option Nat), placeholder_map.portable_name t ti = .ok "???" →
          t = 0 ∧ ∀ d, ti = some d →
            placeholder_map.system_.config.type_names_by_rtti d = none) := by
  refine ⟨rfl, rfl, rfl, ?_⟩
  intro h
  have h1 := (h 0 (some 7) rfl).2 7 rfl
  have h2 : placeholder_map.system_.config.type_names_by_rtti 7 = some "???" := rfl
  rw [h2] at h1
  cases h1

/-- C15, amended: no name of `numbered_type_names` is "???". In a constructed
registry `portable_name(t, ti)` differs from "???" for every tag `t` in `1..N`;
for a tag in `0..N` the result "???" means that the tag is 0 and that the
custom registry holds for the descriptor, if one is given, either no name or
the name "???" itself; and `make_value("???")` returns the null pointer when
the custom name to factory mapping does not register "???". -/
theorem placeholder_not_builtin (sys : actor_system τ) (list : List τ)
    (m : uniform_type_info_map τ) (hm : ctor sys list = .ok m)
    (t : Nat) (ht : t ≤ list.length) (ti : Option τ) :
    "???" ∉ numbered_type_names ∧
      (1 ≤ t → m.portable_name t ti ≠ .ok "???") ∧
      (m.portable_name t ti = .ok "???" →
        t = 0 ∧ ∀ d, ti = some d →
          (m.system_.config.type_names_by_rtti d = none ∨
            m.system_.config.type_names_by_rtti d = some "???")) ∧
      (m.system_.config.value_factories_by_name "???" = none →
        m.make_value_name "???" = .ok none) := by
  have hnot : "???" ∉ numbered_type_names := by decide
  have hbuiltin : 1 ≤ t → m.portable_name t ti ≠ .ok "???" := by
    intro h1 heq
    obtain ⟨i, rfl⟩ : ∃ i, t = i + 1 := ⟨t - 1, by omega⟩
    obtain ⟨nm, hnm, hp⟩ := portable_name_succ sys list m hm i (by omega) ti
    rw [hp] at heq
    have hq : nm = "???" := Except.ok.inj heq
    exact hnot (hq ▸ List.getElem?_mem hnm)
  refine ⟨hnot, hbuiltin, ?_, ?_⟩
  · intro heq
    have ht0 : t = 0 := by
      by_contra hc
      exact hbuiltin (by omega) heq
    subst ht0
    refine ⟨rfl, ?_⟩
    intro d hd
    subst hd
    cases hc : m.system_.config.type_names_by_rtti d with
    | none => exact Or.inl rfl
    | some nm =>
      right
      unfold portable_name at heq
      rw [if_neg (by decide)] at heq
      simp only [hc] at heq
      rw [Except.ok.inj heq]
  · intro hc
    have hb : ∀ kvp ∈ m.builtin_, kvp.1 ≠ "???" := by
      intro kvp hmem heq
      obtain ⟨i, hi⟩ := List.getElem?_of_mem hmem
      obtain ⟨name, type, hname, hkvp⟩ := entry_of_mem_builtin sys list m hm i kvp hi
      rw [hkvp] at heq
      exact hnot (heq ▸ hname)
    rw [make_value_name_of_not_builtin m "???" hb, hc]

/-- C15 amended, evaluated on `demo_map`: the tag 0 with the native type `7`,
registered under "user", and the name "???" given to `make_value`. -/
theorem placeholder_not_builtin_witness :
    ctor ⟨demo_config⟩ demo_types = .ok demo_map ∧ 0 ≤ demo_types.length ∧
      demo_map.system_.config.value_factories_by_name "???" = none ∧
      demo_map.make_value_name "???" = .ok none ∧
      ("???" ∉ numbered_type_names ∧
        (1 ≤ 0 → demo_map.portable_name 0 (some 7) ≠ .ok "???") ∧
        (demo_map.portable_name 0 (some 7) = .ok "???" →
          0 = 0 ∧ ∀ d, some 7 = some d →
            (demo_map.system_.config.type_names_by_rtti d = none ∨
              demo_map.system_.config.type_names_by_rtti d = some "???")) ∧
        (demo_map.system_.config.value_factories_by_name "???" = none →
          demo_map.make_value_name "???" = .ok none)) :=
  ⟨rfl, by decide, rfl,
    (placeholder_not_builtin ⟨demo_config⟩ demo_types demo_map rfl 0 (by decide)
      (some 7)).2.2.2 rfl,
    placeholder_not_builtin ⟨demo_config⟩ demo_types demo_map rfl 0 (by decide) (some 7)⟩

end uniform_type_info_map

end caf
